import Mathlib

/-!
Shallow embedding of the EmotionTracker repository (src/mood_tracker.py and
src/scrape_poems.py).  The interactive curses rendering is out of scope; the
embedding captures the session state (`dates`, `moods`, `current_date`), the
mood-record validation logic, trend detection, the poem-store query, the
external poem fetch loop, and the offline poem-insertion collaborator.
-/

namespace EmotionTracker

/-- Model of Python's `int(str)` digit parsing after the sign: a nonempty
digit run where single underscores may separate digits (Python 3 literal
rule: an underscore must be both preceded and followed by a digit). -/
def parseDigitsAux : List Char → Nat → Option Nat
  | [], acc => some acc
  | c :: cs, acc =>
    if c.isDigit then parseDigitsAux cs (acc * 10 + (c.toNat - 48))
    else if c = '_' then
      match cs with
      | [] => none
      | d :: cs2 =>
        if d.isDigit then parseDigitsAux cs2 (acc * 10 + (d.toNat - 48)) else none
    else none

/-- Parse a nonempty digit string (first char must be a digit). -/
def parseDigits : List Char → Option Nat
  | [] => none
  | c :: cs => if c.isDigit then parseDigitsAux cs (c.toNat - 48) else none

/-- Model of Python's `int` applied to a string: strip surrounding
whitespace, allow one optional sign, then digits; `none` models the
`ValueError` that `int` raises on anything else. -/
def pyInt (s : String) : Option Int :=
  let cs := (((s.data.dropWhile Char.isWhitespace).reverse.dropWhile Char.isWhitespace).reverse)
  match cs with
  | '+' :: rest => (parseDigits rest).map Int.ofNat
  | '-' :: rest => (parseDigits rest).map (fun n => -(Int.ofNat n : Int))
  | rest => (parseDigits rest).map Int.ofNat

/-- Model of Python's `str.strip()`: remove leading and trailing whitespace. -/
def pyStrip (s : String) : String :=
  ⟨((s.data.dropWhile Char.isWhitespace).reverse.dropWhile Char.isWhitespace).reverse⟩

/-- The session state of `MoodTrackerCLI`: the two parallel lists built in
`__init__` (`self.dates = []`, `self.moods = []`) and the date captured once
at construction (`self.current_date = datetime.now().strftime(...)`). -/
structure MoodState where
  dates : List String
  moods : List Int
  current_date : String
deriving Repr, DecidableEq

/-- `MoodTrackerCLI.__init__`: empty history, the current date snapshot is
taken exactly once, at construction. -/
def initState (today : String) : MoodState :=
  { dates := [], moods := [], current_date := today }

/-- Outcome of `add_mood_record`, distinguishing the three branches of the
`try`/`if`/`except` in the source. -/
inductive RecordOutcome
  | accepted (date : String) (score : Int)
  | invalidScore
  | invalidInput
deriving Repr, DecidableEq

/-- The message the source prints for each outcome of `add_mood_record`. -/
def outcomeMessage : RecordOutcome → String
  | RecordOutcome.accepted d s => "Record added: " ++ d ++ " - Mood: " ++ toString s
  | RecordOutcome.invalidScore => "Invalid mood score! Must be between 1 and 10."
  | RecordOutcome.invalidInput => "Invalid input! Please enter a number for the mood score."

/-- `MoodTrackerCLI.add_mood_record`: default an empty date input to the
session's `current_date`, parse the raw score with `int(...)`, and append to
both `dates` and `moods` only when the parsed score lies in `[1,10]`. -/
def add_mood_record (s : MoodState) (date_input raw : String) : MoodState × RecordOutcome :=
  let date := if date_input = "" then s.current_date else date_input
  match pyInt raw with
  | none => (s, RecordOutcome.invalidInput)
  | some score =>
    if 1 ≤ score ∧ score ≤ 10 then
      ({ s with dates := s.dates ++ [date], moods := s.moods ++ [score] },
       RecordOutcome.accepted date score)
    else (s, RecordOutcome.invalidScore)

/-- Result of `check_mood_trends`, one value per message branch (printing
neither message is `NoTrend`). -/
inductive TrendResult
  | LowStreak
  | HighStreak
  | NoTrend
deriving Repr, DecidableEq

/-- `moods[-3:]` for a history of length ≥ 3: the last three records in
insertion order. -/
def lastThree (moods : List Int) : List Int :=
  moods.drop (moods.length - 3)

/-- `MoodTrackerCLI.check_mood_trends`: with at least 3 records, look at the
last three moods; all `< 5` prints the low-streak message, all `> 5` the
high-streak message, anything else prints nothing. -/
def check_mood_trends (moods : List Int) : TrendResult :=
  if 3 ≤ moods.length then
    if (lastThree moods).all (fun m => decide (m < 5)) then TrendResult.LowStreak
    else if (lastThree moods).all (fun m => decide (5 < m)) then TrendResult.HighStreak
    else TrendResult.NoTrend
  else TrendResult.NoTrend

/-- A row of the `poems` table created by `init_duckdb` in scrape_poems.py. -/
structure PoemRow where
  id : Int
  poem_name : String
  writer_name : String
  poem_text : String
  mood_type : String
deriving Repr, DecidableEq

/-- The dict returned by `get_poem_by_mood` on success. -/
structure PoemDict where
  poem_name : String
  writer_name : String
  poem_text : String
deriving Repr, DecidableEq

/-- The poem storage as seen by `get_poem_by_mood`: the database file can be
missing (`os.path.exists` fails), the connection/query can raise (caught by
the bare `except Exception`), or the table of rows is readable. -/
inductive Storage
  | missing
  | broken
  | ok (rows : List PoemRow)
deriving Repr, DecidableEq

/-- The mood-to-category policy of `get_poem_by_mood`:
`"happy" if mood_score >= 6 else "sad"`. -/
def mood_type_for (mood_score : Int) : String :=
  if 6 ≤ mood_score then "happy" else "sad"

/-- Convert a stored row to the dict returned by the query. -/
def rowToDict (r : PoemRow) : PoemDict :=
  ⟨r.poem_name, r.writer_name, r.poem_text⟩

/-- `MoodTrackerCLI.get_poem_by_mood`: `None` when the database file is
missing or any exception occurs; otherwise pick one row uniformly at random
(`ORDER BY RANDOM() LIMIT 1`, modelled by an explicit choice index) among
the rows whose `mood_type` matches the category for the score. -/
def get_poem_by_mood (choice : Nat) (st : Storage) (mood_score : Int) : Option PoemDict :=
  match st with
  | Storage.missing => none
  | Storage.broken => none
  | Storage.ok rows =>
    let matching := rows.filter (fun r => r.mood_type = mood_type_for mood_score)
    match matching with
    | [] => none
    | _ => (matching.get? (choice % matching.length)).map rowToDict

/-- `sorted(..., key=lambda x: x[0])` modelled as a stable insertion: a new
pair goes after every already-placed pair whose date key is ≤ its own.
Python compares strings lexicographically by code point, which is the
lexicographic order on the character list `String.data`. -/
def sortedInsert (p : String × Int) : List (String × Int) → List (String × Int)
  | [] => [p]
  | q :: qs => if q.1.data ≤ p.1.data then q :: sortedInsert p qs else p :: q :: qs

/-- Python's stable `sorted` by first component (Timsort is stable; any
stable sort by a total key order is extensionally this insertion sort). -/
def pySorted (l : List (String × Int)) : List (String × Int) :=
  l.foldl (fun acc p => sortedInsert p acc) []

/-- The `(date, score)` sequence `plot_mood_chart` draws:
`sorted(zip(self.dates, self.moods), key=lambda x: x[0])`. -/
def historyForChart (s : MoodState) : List (String × Int) :=
  pySorted (s.dates.zip s.moods)

/-- The `linecount` value of a remote poem JSON object, by how
`int(poem.get('linecount', 0))` treats it: absent (`.get` default 0), a
value `int` coerces (an integer, an integral string, ...), a string value
`int` rejects with a `ValueError` (which IS in the source's `except`
tuple), or a value of a type `int` rejects with a `TypeError` — e.g.
`null`, a list or a dict — which is NOT in the `except` tuple and so
escapes the loop. -/
inductive LCField
  | absent
  | val (n : Int)
  | badValue
  | badType
deriving Repr, DecidableEq

/-- Outcome of `int(poem.get('linecount', 0))`: a value, a caught
`ValueError`, or an uncaught `TypeError`. -/
inductive CoerceResult
  | okInt (n : Int)
  | valueError
  | typeError
deriving Repr, DecidableEq

/-- `int(poem.get('linecount', 0))` on each field shape. -/
def coerceLC : LCField → CoerceResult
  | LCField.absent => CoerceResult.okInt 0
  | LCField.val n => CoerceResult.okInt n
  | LCField.badValue => CoerceResult.valueError
  | LCField.badType => CoerceResult.typeError

/-- A poem object in the remote JSON response, with each field optional as
the source's `.get` defaults assume. -/
structure PoemJson where
  title : Option String
  author : Option String
  linecount : LCField
  lines : Option (List String)
deriving Repr, DecidableEq

/-- One element of the JSON array the remote service returns: a JSON
object (a Python dict), or any non-dict value such as `null`, a string or
a number — on which `poem.get('linecount', 0)` raises an `AttributeError`
that the source's `except` tuple does not catch. -/
inductive PoemItem
  | dict (p : PoemJson)
  | nondict
deriving Repr, DecidableEq

/-- The dict `get_random_poem` returns on success. -/
structure ExternalPoem where
  title : String
  author : String
  lines : List String
deriving Repr, DecidableEq

/-- Build the returned dict with the source's `.get` defaults. -/
def toExternalPoem (p : PoemJson) : ExternalPoem :=
  ⟨p.title.getD "Untitled", p.author.getD "Unknown", p.lines.getD []⟩

/-- One remote attempt: an exception inside the `try` that the `except`
tuple catches (`requests.RequestException`, `json.JSONDecodeError`,
`KeyError`, a `ValueError` before indexing), or a response parsed to a
list of items.  A top-level non-array JSON value behaves like one of these
cases: an object raises a caught `KeyError` at `poems[0]` (like `err`), a
falsy value skips the `if` (like `ok []`), a non-empty string yields a
non-dict first item, and a truthy number raises an uncaught `TypeError`
at `len(poems)` (like a `badType` linecount). -/
inductive AttemptResult
  | err
  | ok (poems : List PoemItem)

/-- The exception classes that can escape `get_random_poem`'s `try`:
`AttributeError` from `.get` on a non-dict item, `TypeError` from `int()`
on a value like `null`. -/
inductive UncaughtExn
  | attributeError
  | typeError
deriving Repr, DecidableEq

/-- How `get_random_poem` leaves its caller: a returned poem dict, a
returned `None`, or an exception the `except` tuple does not catch
propagating out of the function. -/
inductive FetchOutcome
  | found (p : ExternalPoem)
  | notFound
  | raised (e : UncaughtExn)
deriving Repr, DecidableEq

/-- The `while attempts < max_attempts` loop of `get_random_poem`, with the
remaining budget made explicit; `oracle i` is what the network returns on
attempt number `i`. -/
def fetchAux (oracle : Nat → AttemptResult) : Nat → Nat → FetchOutcome
  | _, 0 => FetchOutcome.notFound
  | attempts, rem + 1 =>
    match oracle attempts with
    | AttemptResult.err => fetchAux oracle (attempts + 1) rem
    | AttemptResult.ok [] => fetchAux oracle (attempts + 1) rem
    | AttemptResult.ok (PoemItem.nondict :: _) =>
      FetchOutcome.raised UncaughtExn.attributeError
    | AttemptResult.ok (PoemItem.dict p :: _) =>
      match coerceLC p.linecount with
      | CoerceResult.typeError => FetchOutcome.raised UncaughtExn.typeError
      | CoerceResult.valueError => fetchAux oracle (attempts + 1) rem
      | CoerceResult.okInt lc =>
        if lc < 1000 then FetchOutcome.found (toExternalPoem p)
        else fetchAux oracle (attempts + 1) rem

/-- `MoodTrackerCLI.get_random_poem`: up to `max_attempts = 20` tries. -/
def get_random_poem (oracle : Nat → AttemptResult) : FetchOutcome :=
  fetchAux oracle 0 20

/-- What one attempt result makes the loop do: retry (caught failure,
empty list, unsuitable or value-erroring line count), return the first
poem (suitable line count), or crash with an uncaught exception. -/
inductive StepKind
  | retry
  | hit (pj : PoemJson)
  | crash (e : UncaughtExn)
deriving Repr, DecidableEq

/-- Classify one attempt result. -/
def attemptStep : AttemptResult → StepKind
  | AttemptResult.err => StepKind.retry
  | AttemptResult.ok [] => StepKind.retry
  | AttemptResult.ok (PoemItem.nondict :: _) => StepKind.crash UncaughtExn.attributeError
  | AttemptResult.ok (PoemItem.dict p :: _) =>
    match coerceLC p.linecount with
    | CoerceResult.typeError => StepKind.crash UncaughtExn.typeError
    | CoerceResult.valueError => StepKind.retry
    | CoerceResult.okInt lc => if lc < 1000 then StepKind.hit p else StepKind.retry

/-- Input to `insert_poems_to_duckdb`: one scraped poem dict. -/
structure PoemInput where
  poem_name : String
  writer_name : String
  poem_text : String
deriving Repr, DecidableEq

/-- `SELECT COALESCE(MAX(id), 0) FROM poems`. -/
def maxId (db : List PoemRow) : Int :=
  db.foldl (fun m r => max m r.id) 0

/-- The body of the insertion loop in `insert_poems_to_duckdb`: strip the
three fields, skip the poem if any is empty, otherwise insert it with id
`max(id)+1` under the given mood type. -/
def insertOne (mt : String) (db : List PoemRow) (p : PoemInput) : List PoemRow :=
  let name := pyStrip p.poem_name
  let writer := pyStrip p.writer_name
  let text := pyStrip p.poem_text
  if name = "" ∨ writer = "" ∨ text = "" then db
  else db ++ [⟨maxId db + 1, name, writer, text, mt⟩]

/-- `insert_poems_to_duckdb`: fold the insertion loop over the scraped
poems (an empty input list leaves the table unchanged). -/
def insert_poems_to_duckdb (poems : List PoemInput) (mt : String) (db : List PoemRow) :
    List PoemRow :=
  poems.foldl (insertOne mt) db

/-- One user action in the main menu loop (`run`): options 1-4.  Only
option 1 (`add_mood_record`) mutates the session state; options 2-4 read it
or talk to external services. -/
inductive Action
  | addMood (date_input raw : String)
  | view
  | chart
  | inspire

/-- One iteration of the menu loop, restricted to its effect on the session
state. -/
def step (s : MoodState) : Action → MoodState
  | Action.addMood d raw => (add_mood_record s d raw).1
  | Action.view => s
  | Action.chart => s
  | Action.inspire => s

/-- The order on chart pairs used internally: by the date key,
lexicographically on its character list. -/
def dateLe (p q : String × Int) : Prop := p.1.data ≤ q.1.data

/-! ## Helper lemmas -/

theorem lastThree_ne_nil (moods : List Int) (h : 3 ≤ moods.length) : lastThree moods ≠ [] := by
  unfold lastThree
  intro hnil
  have hlen := congrArg List.length hnil
  rw [List.length_drop] at hlen
  simp only [List.length_nil] at hlen
  omega

theorem step_cases (s : MoodState) (a : Action) :
    ((step s a).dates = s.dates ∧ (step s a).moods = s.moods ∧
      (step s a).current_date = s.current_date) ∨
    (∃ d n, (step s a).dates = s.dates ++ [d] ∧ (step s a).moods = s.moods ++ [n] ∧
      (step s a).current_date = s.current_date ∧ 1 ≤ n ∧ n ≤ 10) := by
  cases a with
  | view => exact Or.inl ⟨rfl, rfl, rfl⟩
  | chart => exact Or.inl ⟨rfl, rfl, rfl⟩
  | inspire => exact Or.inl ⟨rfl, rfl, rfl⟩
  | addMood d raw =>
    show ((add_mood_record s d raw).1.dates = s.dates ∧ _) ∨ _
    cases hp : pyInt raw with
    | none =>
      refine Or.inl ?_
      simp [step, add_mood_record, hp]
    | some n =>
      by_cases hr : 1 ≤ n ∧ n ≤ 10
      · refine Or.inr ⟨if d = "" then s.current_date else d, n, ?_⟩
        simp only [step, add_mood_record, hp]
        rw [if_pos hr]
        exact ⟨rfl, rfl, rfl, hr.1, hr.2⟩
      · refine Or.inl ?_
        simp only [step, add_mood_record, hp]
        rw [if_neg hr]
        exact ⟨rfl, rfl, rfl⟩

theorem foldl_current_date (acts : List Action) :
    ∀ t : MoodState, (acts.foldl step t).current_date = t.current_date := by
  induction acts with
  | nil => intro t; rfl
  | cons b bs ih =>
    intro t
    show (bs.foldl step (step t b)).current_date = t.current_date
    rw [ih (step t b)]
    rcases step_cases t b with ⟨_, _, hc⟩ | ⟨_, _, _, _, hc, _, _⟩ <;> exact hc

theorem step_moods_mem (t : MoodState) (b : Action) :
    ∀ m ∈ (step t b).moods, m ∈ t.moods ∨ (1 ≤ m ∧ m ≤ 10) := by
  intro m hm
  rcases step_cases t b with ⟨_, hmo, _⟩ | ⟨d, n, _, hmo, _, h1, h10⟩
  · rw [hmo] at hm; exact Or.inl hm
  · rw [hmo] at hm
    rcases List.mem_append.mp hm with h | h
    · exact Or.inl h
    · rcases List.mem_singleton.mp h with rfl
      exact Or.inr ⟨h1, h10⟩

theorem foldl_moods_bounded (acts : List Action) :
    ∀ t : MoodState, (∀ m ∈ t.moods, 1 ≤ m ∧ m ≤ 10) →
      ∀ m ∈ (acts.foldl step t).moods, 1 ≤ m ∧ m ≤ 10 := by
  induction acts with
  | nil => intro t h; exact h
  | cons b bs ih =>
    intro t h
    refine ih (step t b) ?_
    intro m hm
    rcases step_moods_mem t b m hm with h2 | h2
    · exact h m h2
    · exact h2

theorem foldl_length_eq (acts : List Action) :
    ∀ t : MoodState, t.dates.length = t.moods.length →
      (acts.foldl step t).dates.length = (acts.foldl step t).moods.length := by
  induction acts with
  | nil => intro t h; exact h
  | cons b bs ih =>
    intro t h
    refine ih (step t b) ?_
    rcases step_cases t b with ⟨hd, hm, _⟩ | ⟨d, n, hd, hm, _, _, _⟩
    · rw [hd, hm, h]
    · rw [hd, hm]
      simp only [List.length_append, List.length_singleton, h]

theorem attemptStep_hit_spec (r : AttemptResult) (pj : PoemJson)
    (h : attemptStep r = StepKind.hit pj) :
    ∃ rest lc, r = AttemptResult.ok (PoemItem.dict pj :: rest) ∧
      coerceLC pj.linecount = CoerceResult.okInt lc ∧ lc < 1000 := by
  cases r with
  | err => cases h
  | ok ps =>
    cases ps with
    | nil => cases h
    | cons item rest =>
      cases item with
      | nondict => cases h
      | dict p =>
        cases hc : coerceLC p.linecount with
        | typeError => simp only [attemptStep, hc] at h; cases h
        | valueError => simp only [attemptStep, hc] at h; cases h
        | okInt lc =>
          simp only [attemptStep, hc] at h
          by_cases hl : lc < 1000
          · rw [if_pos hl] at h
            cases h
            exact ⟨rest, lc, rfl, hc, hl⟩
          · rw [if_neg hl] at h
            cases h

theorem fetchAux_step (oracle : Nat → AttemptResult) (a rem : Nat) :
    fetchAux oracle a (rem + 1) =
      match attemptStep (oracle a) with
      | StepKind.hit pj => FetchOutcome.found (toExternalPoem pj)
      | StepKind.crash e => FetchOutcome.raised e
      | StepKind.retry => fetchAux oracle (a + 1) rem := by
  show (match oracle a with
    | AttemptResult.err => fetchAux oracle (a + 1) rem
    | AttemptResult.ok [] => fetchAux oracle (a + 1) rem
    | AttemptResult.ok (PoemItem.nondict :: _) =>
      FetchOutcome.raised UncaughtExn.attributeError
    | AttemptResult.ok (PoemItem.dict p :: _) =>
      match coerceLC p.linecount with
      | CoerceResult.typeError => FetchOutcome.raised UncaughtExn.typeError
      | CoerceResult.valueError => fetchAux oracle (a + 1) rem
      | CoerceResult.okInt lc =>
        if lc < 1000 then FetchOutcome.found (toExternalPoem p)
        else fetchAux oracle (a + 1) rem) = _
  cases oracle a with
  | err => rfl
  | ok ps =>
    cases ps with
    | nil => rfl
    | cons item rest =>
      cases item with
      | nondict => rfl
      | dict p =>
        cases hc : coerceLC p.linecount with
        | typeError => simp only [attemptStep, hc]
        | valueError => simp only [attemptStep, hc]
        | okInt lc =>
          simp only [attemptStep, hc]
          by_cases hl : lc < 1000
          · rw [if_pos hl, if_pos hl]
          · rw [if_neg hl, if_neg hl]

theorem fetchAux_sound (oracle : Nat → AttemptResult) :
    ∀ rem a p, fetchAux oracle a rem = FetchOutcome.found p →
      ∃ i, a ≤ i ∧ i < a + rem ∧ ∃ pj, attemptStep (oracle i) = StepKind.hit pj ∧
        p = toExternalPoem pj := by
  intro rem
  induction rem with
  | zero => intro a p h; cases h
  | succ n ih =>
    intro a p h
    rw [fetchAux_step] at h
    cases hh : attemptStep (oracle a) with
    | hit pj =>
      rw [hh] at h
      cases h
      exact ⟨a, le_refl a, by omega, pj, hh, rfl⟩
    | crash e =>
      rw [hh] at h
      cases h
    | retry =>
      rw [hh] at h
      obtain ⟨i, hai, hilt, w⟩ := ih (a + 1) p h
      exact ⟨i, by omega, by omega, w⟩

theorem fetchAux_raised (oracle : Nat → AttemptResult) :
    ∀ rem a e, fetchAux oracle a rem = FetchOutcome.raised e →
      ∃ i, a ≤ i ∧ i < a + rem ∧ attemptStep (oracle i) = StepKind.crash e := by
  intro rem
  induction rem with
  | zero => intro a e h; cases h
  | succ n ih =>
    intro a e h
    rw [fetchAux_step] at h
    cases hh : attemptStep (oracle a) with
    | hit pj =>
      rw [hh] at h
      cases h
    | crash e2 =>
      rw [hh] at h
      cases h
      exact ⟨a, le_refl a, by omega, hh⟩
    | retry =>
      rw [hh] at h
      obtain ⟨i, hai, hilt, w⟩ := ih (a + 1) e h
      exact ⟨i, by omega, by omega, w⟩

theorem fetchAux_exhaust (oracle : Nat → AttemptResult) :
    ∀ rem a, (∀ i, a ≤ i → i < a + rem → attemptStep (oracle i) = StepKind.retry) →
      fetchAux oracle a rem = FetchOutcome.notFound := by
  intro rem
  induction rem with
  | zero => intro a _; rfl
  | succ n ih =>
    intro a h
    rw [fetchAux_step, h a (le_refl a) (by omega)]
    exact ih (a + 1) (fun i h1 h2 => h i (by omega) (by omega))

theorem fetchAux_congr (oracle oracle2 : Nat → AttemptResult) :
    ∀ rem a, (∀ i, a ≤ i → i < a + rem → oracle i = oracle2 i) →
      fetchAux oracle a rem = fetchAux oracle2 a rem := by
  intro rem
  induction rem with
  | zero => intro a _; rfl
  | succ n ih =>
    intro a h
    rw [fetchAux_step, fetchAux_step, h a (le_refl a) (by omega),
      ih (a + 1) (fun i h1 h2 => h i (by omega) (by omega))]

theorem sortedInsert_perm (p : String × Int) (l : List (String × Int)) :
    List.Perm (sortedInsert p l) (p :: l) := by
  induction l with
  | nil => exact List.Perm.refl _
  | cons q qs ih =>
    show List.Perm (if q.1.data ≤ p.1.data then q :: sortedInsert p qs else p :: q :: qs) _
    by_cases hle : q.1.data ≤ p.1.data
    · rw [if_pos hle]
      exact (List.Perm.cons q ih).trans (List.Perm.swap p q qs)
    · rw [if_neg hle]

theorem pySorted_perm_aux (l : List (String × Int)) :
    ∀ acc, List.Perm (l.foldl (fun acc p => sortedInsert p acc) acc) (acc ++ l) := by
  induction l with
  | nil => intro acc; simp
  | cons p ps ih =>
    intro acc
    show List.Perm (ps.foldl (fun acc p => sortedInsert p acc) (sortedInsert p acc)) _
    refine (ih (sortedInsert p acc)).trans ?_
    refine (List.Perm.append_right ps (sortedInsert_perm p acc)).trans ?_
    show List.Perm (p :: (acc ++ ps)) (acc ++ p :: ps)
    exact List.perm_middle.symm

theorem sortedInsert_sorted (p : String × Int) (l : List (String × Int))
    (h : List.Sorted dateLe l) : List.Sorted dateLe (sortedInsert p l) := by
  induction l with
  | nil => simp [sortedInsert, List.Sorted]
  | cons q qs ih =>
    rw [List.sorted_cons] at h
    obtain ⟨hq, hs⟩ := h
    show List.Sorted dateLe (if q.1.data ≤ p.1.data then q :: sortedInsert p qs else p :: q :: qs)
    by_cases hle : q.1.data ≤ p.1.data
    · rw [if_pos hle, List.sorted_cons]
      refine ⟨?_, ih hs⟩
      intro r hr
      rcases List.mem_cons.mp ((sortedInsert_perm p qs).mem_iff.mp hr) with rfl | hr2
      · exact hle
      · exact hq r hr2
    · rw [if_neg hle, List.sorted_cons]
      have hpq : p.1.data ≤ q.1.data := le_of_not_le hle
      refine ⟨?_, List.sorted_cons.mpr ⟨hq, hs⟩⟩
      intro r hr
      rcases List.mem_cons.mp hr with rfl | hr
      · exact hpq
      · exact le_trans hpq (hq r hr)

theorem filter_sortedInsert (k : String) (p : String × Int) (l : List (String × Int))
    (h : List.Sorted dateLe l) :
    (sortedInsert p l).filter (fun q => q.1 = k) =
      l.filter (fun q => q.1 = k) ++ if p.1 = k then [p] else [] := by
  induction l with
  | nil =>
    show [p].filter (fun q => q.1 = k) = [] ++ _
    by_cases hpk : p.1 = k <;> simp [List.filter, hpk]
  | cons q qs ih =>
    rw [List.sorted_cons] at h
    obtain ⟨hq, hs⟩ := h
    show (if q.1.data ≤ p.1.data then q :: sortedInsert p qs else p :: q :: qs).filter
        (fun q => q.1 = k) = _
    by_cases hle : q.1.data ≤ p.1.data
    · rw [if_pos hle]
      rw [List.filter_cons, List.filter_cons]
      by_cases hqk : q.1 = k
      · simp [hqk, ih hs]
      · simp [hqk, ih hs]
    · rw [if_neg hle]
      have hplt : p.1.data < q.1.data := lt_of_not_le hle
      by_cases hpk : p.1 = k
      · have hfq : (q :: qs).filter (fun q => q.1 = k) = [] := by
          rw [List.filter_eq_nil_iff]
          intro r hr
          have hrk : q.1.data ≤ r.1.data := by
            rcases List.mem_cons.mp hr with rfl | hr2
            · exact le_refl _
            · exact hq r hr2
          simp only [decide_eq_true_eq]
          intro hrk2
          rw [← hpk] at hrk2
          have : r.1.data = p.1.data := congrArg String.data hrk2
          rw [this] at hrk
          exact absurd (lt_of_lt_of_le hplt hrk) (lt_irrefl _)
        rw [List.filter_cons, hfq]
        simp [hpk]
      · rw [List.filter_cons]
        simp [hpk]

theorem pySorted_sorted_aux (l : List (String × Int)) :
    ∀ acc, List.Sorted dateLe acc →
      List.Sorted dateLe (l.foldl (fun acc p => sortedInsert p acc) acc) := by
  induction l with
  | nil => intro acc h; exact h
  | cons p ps ih =>
    intro acc h
    exact ih (sortedInsert p acc) (sortedInsert_sorted p acc h)

theorem pySorted_filter_aux (k : String) (l : List (String × Int)) :
    ∀ acc, List.Sorted dateLe acc →
      (l.foldl (fun acc p => sortedInsert p acc) acc).filter (fun q => q.1 = k) =
        acc.filter (fun q => q.1 = k) ++ l.filter (fun q => q.1 = k) := by
  induction l with
  | nil => intro acc _; simp
  | cons p ps ih =>
    intro acc h
    show (ps.foldl (fun acc p => sortedInsert p acc) (sortedInsert p acc)).filter
        (fun q => q.1 = k) = _
    rw [ih (sortedInsert p acc) (sortedInsert_sorted p acc h),
      filter_sortedInsert k p acc h, List.filter_cons]
    by_cases hpk : p.1 = k
    · simp [hpk]
    · simp [hpk]

theorem get_poem_by_mood_ok (choice : Nat) (rows : List PoemRow) (score : Int)
    (x : List PoemRow) (hx : rows.filter (fun r => r.mood_type = mood_type_for score) = x)
    (hne : x ≠ []) :
    get_poem_by_mood choice (Storage.ok rows) score =
      (x.get? (choice % x.length)).map rowToDict := by
  cases x with
  | nil => exact absurd rfl hne
  | cons a l => simp only [get_poem_by_mood, hx]

/-! ## Claim theorems -/

/-- Claim C1: trend classification looks only at the last three records in
insertion order; it is `LowStreak` exactly when there are at least 3 records
and all of the last three scores are strictly below 5, `HighStreak` exactly
when there are at least 3 records and all of the last three scores are
strictly above 5, and `NoTrend` in every other case (so always for fewer
than 3 records, and whenever one of the last three scores equals 5). -/
theorem trend_rule (moods : List Int) :
    (check_mood_trends moods = TrendResult.LowStreak ↔
      3 ≤ moods.length ∧ ∀ m ∈ lastThree moods, m < 5) ∧
    (check_mood_trends moods = TrendResult.HighStreak ↔
      3 ≤ moods.length ∧ ∀ m ∈ lastThree moods, 5 < m) ∧
    (check_mood_trends moods = TrendResult.NoTrend ↔
      ¬(3 ≤ moods.length ∧ ∀ m ∈ lastThree moods, m < 5) ∧
      ¬(3 ≤ moods.length ∧ ∀ m ∈ lastThree moods, 5 < m)) := by
  unfold check_mood_trends
  by_cases h3 : 3 ≤ moods.length
  · obtain ⟨m0, hm0⟩ := List.exists_mem_of_ne_nil _ (lastThree_ne_nil moods h3)
    rw [if_pos h3]
    by_cases hlow : ∀ m ∈ lastThree moods, m < 5
    · have hlb : (lastThree moods).all (fun m => decide (m < 5)) = true := by
        simp only [List.all_eq_true, decide_eq_true_eq]; exact hlow
      have hnh : ¬ ∀ m ∈ lastThree moods, 5 < m := by
        intro hh
        have := hlow m0 hm0
        have := hh m0 hm0
        omega
      rw [if_pos hlb]
      refine ⟨iff_of_true rfl ⟨h3, hlow⟩, ?_, ?_⟩
      · simp only [iff_iff_implies_and_implies]
        constructor
        · intro h; cases h
        · intro h; exact absurd h.2 hnh
      · simp only [iff_iff_implies_and_implies]
        constructor
        · intro h; cases h
        · intro h; exact absurd ⟨h3, hlow⟩ h.1
    · have hlb : ¬ (lastThree moods).all (fun m => decide (m < 5)) = true := by
        simp only [List.all_eq_true, decide_eq_true_eq]; exact hlow
      rw [if_neg hlb]
      by_cases hhigh : ∀ m ∈ lastThree moods, 5 < m
      · have hhb : (lastThree moods).all (fun m => decide (5 < m)) = true := by
          simp only [List.all_eq_true, decide_eq_true_eq]; exact hhigh
        rw [if_pos hhb]
        refine ⟨?_, iff_of_true rfl ⟨h3, hhigh⟩, ?_⟩
        · simp only [iff_iff_implies_and_implies]
          constructor
          · intro h; cases h
          · intro h; exact absurd h.2 hlow
        · simp only [iff_iff_implies_and_implies]
          constructor
          · intro h; cases h
          · intro h; exact absurd ⟨h3, hhigh⟩ h.2
      · have hhb : ¬ (lastThree moods).all (fun m => decide (5 < m)) = true := by
          simp only [List.all_eq_true, decide_eq_true_eq]; exact hhigh
        rw [if_neg hhb]
        refine ⟨?_, ?_, ?_⟩
        · simp only [iff_iff_implies_and_implies]
          constructor
          · intro h; cases h
          · intro h; exact absurd h.2 hlow
        · simp only [iff_iff_implies_and_implies]
          constructor
          · intro h; cases h
          · intro h; exact absurd h.2 hhigh
        · constructor
          · intro _
            exact ⟨fun h => hlow h.2, fun h => hhigh h.2⟩
          · intro _; rfl
  · rw [if_neg h3]
    refine ⟨?_, ?_, ?_⟩
    · simp only [iff_iff_implies_and_implies]
      constructor
      · intro h; cases h
      · intro h; exact absurd h.1 h3
    · simp only [iff_iff_implies_and_implies]
      constructor
      · intro h; cases h
      · intro h; exact absurd h.1 h3
    · constructor
      · intro _
        exact ⟨fun h => h3 h.1, fun h => h3 h.1⟩
      · intro _; rfl

/-- Claim C2: a raw score string that parses as an integer in `[1,10]` is
accepted and appends exactly one record to the history; a string that does
not parse is rejected with the "not a number" outcome and a parsed score
out of `[1,10]` with the "out of range" outcome, both leaving the state
unchanged, and the two rejection messages are distinct. -/
theorem record_mood_validation (s : MoodState) (d raw : String) :
    (pyInt raw = none →
      (add_mood_record s d raw).1 = s ∧
      (add_mood_record s d raw).2 = RecordOutcome.invalidInput) ∧
    (∀ n : Int, pyInt raw = some n → 1 ≤ n → n ≤ 10 →
      (add_mood_record s d raw).1.moods = s.moods ++ [n] ∧
      (add_mood_record s d raw).1.dates = s.dates ++ [if d = "" then s.current_date else d] ∧
      (add_mood_record s d raw).2 =
        RecordOutcome.accepted (if d = "" then s.current_date else d) n) ∧
    (∀ n : Int, pyInt raw = some n → ¬(1 ≤ n ∧ n ≤ 10) →
      (add_mood_record s d raw).1 = s ∧
      (add_mood_record s d raw).2 = RecordOutcome.invalidScore) ∧
    outcomeMessage RecordOutcome.invalidInput ≠ outcomeMessage RecordOutcome.invalidScore := by
  refine ⟨?_, ?_, ?_, by decide⟩
  · intro hp
    simp [add_mood_record, hp]
  · intro n hp h1 h10
    simp [add_mood_record, hp, h1, h10]
  · intro n hp hr
    simp [add_mood_record, hp, hr]

/-- Witness for C2 at the concrete input "7". -/
theorem record_mood_validation_witness :
    (add_mood_record (initState "2024-01-01") "" "7").1.moods = [] ++ [(7 : Int)] :=
  ((record_mood_validation (initState "2024-01-01") "" "7").2.1 7 (by decide)
    (by decide) (by decide)).1

/-- Claim C3: for a score in `[1,10]`, the poem query selects by the fixed
threshold category (`score ≥ 6 →` "happy", `score ≤ 5 →` "sad"): any
returned dict comes from a stored row tagged with that category, and if no
row matches the category the query returns `none` (and, being a total
function, never raises). -/
theorem poem_category_policy (choice : Nat) (rows : List PoemRow) (score : Int)
    (h1 : 1 ≤ score) (h10 : score ≤ 10) :
    (∀ d, get_poem_by_mood choice (Storage.ok rows) score = some d →
      ∃ r ∈ rows, d = rowToDict r ∧ r.mood_type = mood_type_for score ∧
        (6 ≤ score → r.mood_type = "happy") ∧ (score ≤ 5 → r.mood_type = "sad")) ∧
    (rows.filter (fun r => r.mood_type = mood_type_for score) = [] →
      get_poem_by_mood choice (Storage.ok rows) score = none) := by
  constructor
  · intro d hd
    simp only [get_poem_by_mood] at hd
    cases hm : rows.filter (fun r => r.mood_type = mood_type_for score) with
    | nil => rw [hm] at hd; cases hd
    | cons r0 rest =>
      rw [hm] at hd
      simp only [Option.map_eq_some'] at hd
      obtain ⟨r, hr, hd⟩ := hd
      have hmem : r ∈ rows.filter (fun r => r.mood_type = mood_type_for score) := by
        rw [hm]; exact List.get?_mem hr
      rw [List.mem_filter] at hmem
      obtain ⟨hrows, hpred⟩ := hmem
      have hmt : r.mood_type = mood_type_for score := by
        simpa using hpred
      refine ⟨r, hrows, hd.symm, hmt, ?_, ?_⟩
      · intro h6
        rw [hmt]; unfold mood_type_for; rw [if_pos h6]
      · intro h5
        rw [hmt]; unfold mood_type_for; rw [if_neg (by omega)]
  · intro hm
    simp only [get_poem_by_mood]
    rw [hm]

/-- Witness for C3: an empty store has no happy poems, so `none`. -/
theorem poem_category_policy_witness :
    get_poem_by_mood 0 (Storage.ok []) 6 = none :=
  (poem_category_policy 0 [] 6 (by decide) (by decide)).2 rfl

/-- Claim C4 counterexample: the claim asserts `get_random_poem` always
terminates with a poem or NotFound and never raises for a malformed
response, but the source's `except` tuple (line 282) catches only
`RequestException`, `JSONDecodeError`, `ValueError` and `KeyError`: a
response parsing to `[null]` raises an uncaught `AttributeError` at
`poem.get('linecount', 0)` on the very first attempt, and a response
`[{"linecount": null}]` raises an uncaught `TypeError` at `int(None)` —
in both cases the function raises instead of returning. -/
theorem fetch_raises_counterexample :
    get_random_poem (fun _ => AttemptResult.ok [PoemItem.nondict]) =
      FetchOutcome.raised UncaughtExn.attributeError ∧
    get_random_poem
        (fun _ => AttemptResult.ok [PoemItem.dict ⟨none, none, LCField.badType, none⟩]) =
      FetchOutcome.raised UncaughtExn.typeError ∧
    (∀ p : ExternalPoem,
      get_random_poem (fun _ => AttemptResult.ok [PoemItem.nondict]) ≠
        FetchOutcome.found p) ∧
    get_random_poem (fun _ => AttemptResult.ok [PoemItem.nondict]) ≠
      FetchOutcome.notFound := by
  refine ⟨rfl, rfl, ?_, ?_⟩
  · intro p h
    cases h
  · intro h
    cases h

/-- Claim C4 (amended): the external fetch makes at most 20 attempts (its
result only depends on the first 20 oracle answers); any returned poem
comes from an attempt whose reported line count coerced to an integer
below 1000; when every attempt among the 20 fails with a caught exception
or is unsuitable it returns NotFound without raising; but a malformed
response whose first item is not a JSON object, or whose line count has a
type `int()` rejects with a `TypeError` (e.g. `null`), escapes the narrow
`except` tuple and makes the call raise — and a raise only ever comes
from such an attempt within the first 20. -/
theorem fetch_bounded_and_filtered (oracle oracle2 : Nat → AttemptResult) (p : ExternalPoem)
    (e : UncaughtExn) :
    (get_random_poem oracle = FetchOutcome.found p →
      ∃ i < 20, ∃ pj rest lc, oracle i = AttemptResult.ok (PoemItem.dict pj :: rest) ∧
        coerceLC pj.linecount = CoerceResult.okInt lc ∧ lc < 1000 ∧ p = toExternalPoem pj) ∧
    ((∀ i < 20, attemptStep (oracle i) = StepKind.retry) →
      get_random_poem oracle = FetchOutcome.notFound) ∧
    (get_random_poem oracle = FetchOutcome.raised e →
      ∃ i < 20, attemptStep (oracle i) = StepKind.crash e) ∧
    ((∀ i < 20, oracle i = oracle2 i) → get_random_poem oracle = get_random_poem oracle2) := by
  refine ⟨?_, ?_, ?_, ?_⟩
  · intro h
    obtain ⟨i, h0, h20, pj, hhit, hp⟩ := fetchAux_sound oracle 20 0 p h
    obtain ⟨rest, lc, hok, hco, hlc⟩ := attemptStep_hit_spec (oracle i) pj hhit
    exact ⟨i, by omega, pj, rest, lc, hok, hco, hlc, hp⟩
  · intro h
    exact fetchAux_exhaust oracle 20 0 (fun i _ h2 => h i (by omega))
  · intro h
    obtain ⟨i, h0, h20, hc⟩ := fetchAux_raised oracle 20 0 e h
    exact ⟨i, by omega, hc⟩
  · intro h
    exact fetchAux_congr oracle oracle2 20 0 (fun i _ h2 => h i (by omega))

/-- Witness for the amended C4: an oracle whose requests always fail with
a caught transport error exhausts the budget and returns NotFound. -/
theorem fetch_bounded_and_filtered_witness :
    get_random_poem (fun _ => AttemptResult.err) = FetchOutcome.notFound :=
  (fetch_bounded_and_filtered (fun _ => AttemptResult.err) (fun _ => AttemptResult.err)
    ⟨"", "", []⟩ UncaughtExn.typeError).2.1 (fun _ _ => rfl)

/-- Claim C5: the mood history is append-only and every stored score lies in
`[1,10]`: each menu action either leaves both lists unchanged or appends one
validated record at the end, the score bound is preserved, and over any
whole session starting from the empty history every stored score lies in
`[1,10]`. -/
theorem history_append_only (s : MoodState) (a : Action)
    (h : ∀ m ∈ s.moods, 1 ≤ m ∧ m ≤ 10) :
    (∀ m ∈ (step s a).moods, 1 ≤ m ∧ m ≤ 10) ∧
    (((step s a).dates = s.dates ∧ (step s a).moods = s.moods) ∨
      ∃ d n, (step s a).dates = s.dates ++ [d] ∧ (step s a).moods = s.moods ++ [n] ∧
        1 ≤ n ∧ n ≤ 10) ∧
    (∀ (acts : List Action) (today : String),
      ∀ m ∈ (acts.foldl step (initState today)).moods, 1 ≤ m ∧ m ≤ 10) := by
  refine ⟨?_, ?_, ?_⟩
  · intro m hm
    rcases step_moods_mem s a m hm with h2 | h2
    · exact h m h2
    · exact h2
  · rcases step_cases s a with ⟨hd, hm, _⟩ | ⟨d, n, hd, hm, _, h1, h10⟩
    · exact Or.inl ⟨hd, hm⟩
    · exact Or.inr ⟨d, n, hd, hm, h1, h10⟩
  · intro acts today
    refine foldl_moods_bounded acts (initState today) ?_
    intro m hm
    cases hm

/-- Witness for C5 at one concrete accepted action. -/
theorem history_append_only_witness :
    ((step (initState "2024-01-01") (Action.addMood "" "7")).dates =
        [] ∧ (step (initState "2024-01-01") (Action.addMood "" "7")).moods = []) ∨
    ∃ d n, (step (initState "2024-01-01") (Action.addMood "" "7")).dates = [] ++ [d] ∧
      (step (initState "2024-01-01") (Action.addMood "" "7")).moods = [] ++ [n] ∧
      1 ≤ n ∧ n ≤ 10 :=
  (history_append_only (initState "2024-01-01") (Action.addMood "" "7")
    (by intro m hm; cases hm)).2.1

/-- Claim C6: the chart view is the `(date, score)` pairs of the history
sorted ascending by date, equal-date pairs keeping their insertion order
(stable), a permutation of the zipped history; an empty history yields the
empty sequence, and the example records `[("2024-03-02",4),("2024-03-01",7)]`
chart as `[("2024-03-01",7),("2024-03-02",4)]`. -/
theorem chart_sorted_stable (s : MoodState) :
    List.Sorted (fun p q : String × Int => p.1 ≤ q.1) (historyForChart s) ∧
    List.Perm (historyForChart s) (s.dates.zip s.moods) ∧
    (∀ k : String, (historyForChart s).filter (fun p => p.1 = k) =
      (s.dates.zip s.moods).filter (fun p => p.1 = k)) ∧
    (s.dates = [] → historyForChart s = []) ∧
    historyForChart ⟨["2024-03-02", "2024-03-01"], [4, 7], "2024-03-02"⟩ =
      [("2024-03-01", 7), ("2024-03-02", 4)] := by
  refine ⟨?_, ?_, ?_, ?_, by decide⟩
  · have h := pySorted_sorted_aux (s.dates.zip s.moods) [] (by simp [List.Sorted])
    refine List.Pairwise.imp ?_ h
    intro a b hab
    rw [String.le_iff_toList_le]
    exact hab
  · exact (pySorted_perm_aux (s.dates.zip s.moods) []).trans (by rw [List.nil_append])
  · intro k
    have h := pySorted_filter_aux k (s.dates.zip s.moods) [] (by simp [List.Sorted])
    rw [show historyForChart s = pySorted (s.dates.zip s.moods) from rfl, pySorted, h]
    rfl
  · intro hd
    rw [show historyForChart s = pySorted (s.dates.zip s.moods) from rfl, hd]
    rfl

/-- Witness for C6: the empty history charts as the empty sequence. -/
theorem chart_sorted_stable_witness :
    historyForChart (initState "2024-01-01") = [] :=
  (chart_sorted_stable (initState "2024-01-01")).2.2.2.1 rfl

/-- Claim C7 counterexample: when the poem storage is missing or broken the
query returns the very same value `none` it returns for an empty store, so
the storage-error condition is NOT distinguishable from not-found — neither
by the caller nor internally (the source returns `None` from its bare
`except` with no logging), contradicting the claim that it is not swallowed
silently at the component boundary. -/
theorem storage_error_counterexample :
    get_poem_by_mood 0 Storage.missing 5 = none ∧
    get_poem_by_mood 0 Storage.broken 5 = none ∧
    get_poem_by_mood 0 (Storage.ok []) 5 = none ∧
    get_poem_by_mood 0 Storage.missing 5 = get_poem_by_mood 0 (Storage.ok []) 5 :=
  ⟨rfl, rfl, rfl, rfl⟩

/-- Claim C7 (amended): when the storage is unreachable or malformed the
query returns `none`, exactly the not-found outcome — the error is
downgraded and swallowed at the component boundary, with no internally
distinguishable diagnostic. -/
theorem storage_error_downgraded (choice : Nat) (st : Storage) (score : Int) :
    (st = Storage.missing ∨ st = Storage.broken →
      get_poem_by_mood choice st score = none) ∧
    get_poem_by_mood choice Storage.missing score =
      get_poem_by_mood choice (Storage.ok []) score := by
  constructor
  · rintro (rfl | rfl) <;> rfl
  · rfl

/-- Witness for the amended C7 at a concrete broken store. -/
theorem storage_error_downgraded_witness :
    get_poem_by_mood 3 Storage.broken 7 = none :=
  (storage_error_downgraded 3 Storage.broken 7).1 (Or.inr rfl)

/-- Claim C8: an empty date input defaults to the session's current-date
snapshot; that snapshot is captured once at construction and no action ever
changes it (so every defaulted record in a session carries the same value,
never re-read from a clock). -/
theorem date_snapshot (s : MoodState) (a : Action) (raw : String) (n : Int) :
    (step s a).current_date = s.current_date ∧
    (∀ (acts : List Action) (today : String),
      (acts.foldl step (initState today)).current_date = today) ∧
    (pyInt raw = some n → 1 ≤ n → n ≤ 10 →
      (add_mood_record s "" raw).1.dates = s.dates ++ [s.current_date]) := by
  have hstep : ∀ (t : MoodState) (b : Action), (step t b).current_date = t.current_date := by
    intro t b
    rcases step_cases t b with ⟨_, _, hc⟩ | ⟨_, _, _, _, hc, _, _⟩ <;> exact hc
  refine ⟨hstep s a, ?_, ?_⟩
  · intro acts today
    exact foldl_current_date acts (initState today)
  · intro hp h1 h10
    simp [add_mood_record, hp, h1, h10]

/-- Witness for C8 at a concrete accepted record with empty date input. -/
theorem date_snapshot_witness :
    (add_mood_record (initState "2024-05-05") "" "7").1.dates = [] ++ ["2024-05-05"] :=
  (date_snapshot (initState "2024-05-05") Action.view "7" 7).2.2 (by decide)
    (by decide) (by decide)

/-- Claim C9 counterexample: the poem record `(" ", "W", "T")` has a
non-empty name, writer and text, yet the population collaborator strips the
fields and rejects it (the store stays empty), so the subsequent query
returns `none` rather than a record with identical fields — refuting the
claim as stated for whitespace-only fields. -/
theorem poem_roundtrip_counterexample :
    (" " : String) ≠ "" ∧ ("W" : String) ≠ "" ∧ ("T" : String) ≠ "" ∧
    insert_poems_to_duckdb [PoemInput.mk " " "W" "T"] "happy" [] = [] ∧
    get_poem_by_mood 0
      (Storage.ok (insert_poems_to_duckdb [PoemInput.mk " " "W" "T"] "happy" [])) 6 = none := by
  refine ⟨by decide, by decide, by decide, by decide, by decide⟩

/-- Claim C9 (amended): for every poem whose name, writer and text are
non-empty after stripping surrounding whitespace, inserting it under a
category and querying with a score mapping to that category returns, for
some random choice, a record whose name, author and text equal the stripped
inputs; a poem with any field empty after stripping is rejected before
insertion (the store is unchanged) and so never returned. -/
theorem poem_roundtrip (p : PoemInput) (db : List PoemRow) (score : Int) (mt : String) :
    (pyStrip p.poem_name ≠ "" → pyStrip p.writer_name ≠ "" → pyStrip p.poem_text ≠ "" →
      mood_type_for score = mt →
      ∃ choice, get_poem_by_mood choice
          (Storage.ok (insert_poems_to_duckdb [p] mt db)) score =
        some ⟨pyStrip p.poem_name, pyStrip p.writer_name, pyStrip p.poem_text⟩) ∧
    (pyStrip p.poem_name = "" ∨ pyStrip p.writer_name = "" ∨ pyStrip p.poem_text = "" →
      insert_poems_to_duckdb [p] mt db = db) := by
  constructor
  · intro hn hw ht hmt
    set row : PoemRow :=
      ⟨maxId db + 1, pyStrip p.poem_name, pyStrip p.writer_name, pyStrip p.poem_text, mt⟩
      with hrowdef
    have hrow : insert_poems_to_duckdb [p] mt db = db ++ [row] := by
      show insertOne mt db p = _
      unfold insertOne
      rw [if_neg (by push_neg; exact ⟨hn, hw, ht⟩)]
    have hfil : (db ++ [row]).filter (fun r => r.mood_type = mood_type_for score) =
        db.filter (fun r => r.mood_type = mood_type_for score) ++ [row] := by
      rw [List.filter_append]
      simp [hmt]
    set n : Nat := (db.filter (fun r => r.mood_type = mood_type_for score)).length with hn2
    refine ⟨n, ?_⟩
    rw [hrow, get_poem_by_mood_ok n (db ++ [row]) score _ hfil (by simp)]
    have hlen : (db.filter (fun r => r.mood_type = mood_type_for score) ++ [row]).length
        = n + 1 := by
      simp [hn2]
    rw [hlen, Nat.mod_eq_of_lt (Nat.lt_succ_self n),
      List.get?_append_right (le_refl n)]
    simp [rowToDict]
  · intro h
    show insertOne mt db p = db
    unfold insertOne
    rw [if_pos h]

/-- Witness for the amended C9 at a concrete valid poem in an empty store. -/
theorem poem_roundtrip_witness :
    ∃ choice, get_poem_by_mood choice
        (Storage.ok (insert_poems_to_duckdb [PoemInput.mk "A" "B" "C"] "happy" [])) 6 =
      some (PoemDict.mk (pyStrip "A") (pyStrip "B") (pyStrip "C")) :=
  (poem_roundtrip (PoemInput.mk "A" "B" "C") [] 6 "happy").1 (by decide) (by decide)
    (by decide) (by decide)

/-- Claim C10: `dates` and `moods` always have equal length — both start
empty, every action appends to both or to neither, and over any session the
two parallel lists never desynchronize. -/
theorem parallel_lists (s : MoodState) (a : Action)
    (h : s.dates.length = s.moods.length) :
    (step s a).dates.length = (step s a).moods.length ∧
    (∀ today : String, (initState today).dates.length = (initState today).moods.length) ∧
    (∀ (acts : List Action) (today : String),
      (acts.foldl step (initState today)).dates.length =
        (acts.foldl step (initState today)).moods.length) := by
  refine ⟨?_, fun _ => rfl, ?_⟩
  · rcases step_cases s a with ⟨hd, hm, _⟩ | ⟨d, n, hd, hm, _, _, _⟩
    · rw [hd, hm, h]
    · rw [hd, hm]
      simp only [List.length_append, List.length_singleton, h]
  · intro acts today
    exact foldl_length_eq acts (initState today) rfl

/-- Witness for C10 at one concrete action. -/
theorem parallel_lists_witness :
    (step (initState "2024-01-01") (Action.addMood "" "7")).dates.length =
      (step (initState "2024-01-01") (Action.addMood "" "7")).moods.length :=
  (parallel_lists (initState "2024-01-01") (Action.addMood "" "7") rfl).1

end EmotionTracker
